import Mathlib

set_option maxHeartbeats 1000000

/-!
Verification of the message/status reconciliation engine of the
whatsapp-clone backend.

The embedding models the Python sources:
 - `src/backend/scripts/payload_processor.py`: `normalize_webhook_payload`
   and the per-payload body of `process_path` (batch reconciliation engine);
 - `src/backend/app/main.py`: `VALID_STATUS_TRANSITIONS`,
   `db_update_message_status`, `db_insert_message`.

Python values that flow through these functions (parsed JSON) are modelled
by the inductive `PyVal`; Python exceptions are modelled explicitly with
`Except PyErr`, mirroring where the source raises and where it catches.
MongoDB collections are modelled as lists of documents; `update_one` updates
the first matching document and reports `modified_count = 0` when the
`$set` value equals the stored one, matching the MongoDB semantics the
source relies on.
-/

/-- A structured value as produced by `json.load` / passed around the Python
code: `None`, booleans, integers, strings, lists and string-keyed dicts.
Lists and dicts are encoded with cons-style constructors (`vnil`/`vcons`,
`dnil`/`dcons`) so the type is a plain inductive with decidable equality. -/
inductive PyVal where
  | vnone
  | vbool (b : Bool)
  | vint (n : Int)
  | vstr (s : String)
  | vnil
  | vcons (hd tl : PyVal)
  | dnil
  | dcons (k : String) (v tl : PyVal)
deriving DecidableEq, Repr

/-- Build an encoded Python list from a Lean list. -/
def pyList : List PyVal → PyVal
  | [] => .vnil
  | x :: xs => .vcons x (pyList xs)

/-- Build an encoded Python dict from a Lean association list. -/
def pyDict : List (String × PyVal) → PyVal
  | [] => .dnil
  | (k, v) :: xs => .dcons k v (pyDict xs)

/-- Python exception classes that the modelled code can raise. -/
inductive PyErr where
  | attrError | keyError | indexError | typeError | valueError | duplicateKey
deriving DecidableEq, Repr

/-- Is the value a Python dict? -/
def isDict : PyVal → Bool
  | .dnil => true
  | .dcons _ _ _ => true
  | _ => false

/-- Is the value a Python list? -/
def isList : PyVal → Bool
  | .vnil => true
  | .vcons _ _ => true
  | _ => false

/-- Python truthiness of a `PyVal` (`if v:`). -/
def truthy : PyVal → Bool
  | .vnone => false
  | .vbool b => b
  | .vint n => n != 0
  | .vstr s => decide (s ≠ "")
  | .vnil => false
  | .vcons _ _ => true
  | .dnil => false
  | .dcons _ _ _ => true

/-- Python `a or b`: `a` when truthy, else `b`. -/
def pyOr (a b : PyVal) : PyVal := if truthy a then a else b

/-- First binding of key `k` in an encoded dict (`none` on non-dicts and
absent keys). -/
def dget : PyVal → String → Option PyVal
  | .dcons k' v rest, k => if k' = k then some v else dget rest k
  | _, _ => none

/-- Python `v.get(k, dflt)`: raises `AttributeError` when `v` is not a dict. -/
def pyGetD (v : PyVal) (k : String) (dflt : PyVal) : Except PyErr PyVal :=
  if isDict v then .ok ((dget v k).getD dflt) else .error .attrError

/-- Index an encoded Python list. -/
def plistGet : PyVal → Nat → Except PyErr PyVal
  | .vcons hd _, 0 => .ok hd
  | .vcons _ tl, n + 1 => plistGet tl n
  | _, _ => .error .indexError

/-- Python subscript `v[k]` for the shapes the source uses: dict by string
key (`KeyError` when absent) and list by nonnegative index (`IndexError`
when out of range; the source only ever subscripts lists with the
literal `0`). -/
def pySub (v k : PyVal) : Except PyErr PyVal :=
  if isDict v then
    match k with
    | .vstr s =>
        match dget v s with
        | some x => .ok x
        | none => .error .keyError
    | _ => .error .keyError
  else if isList v then
    match k with
    | .vint n => if 0 ≤ n then plistGet v n.toNat else .error .indexError
    | _ => .error .typeError
  else .error .typeError

/-- Python `int(v)` on the value kinds that can appear here. -/
def pyInt (v : PyVal) : Except PyErr Int :=
  match v with
  | .vint n => .ok n
  | .vbool b => .ok (if b then 1 else 0)
  | .vstr s =>
      match s.toInt? with
      | some n => .ok n
      | none => .error .valueError
  | _ => .error .typeError

/-- Abstracts `datetime.fromtimestamp(n, tz=timezone.utc).isoformat()`:
an injective rendering of the epoch value; no claim inspects its shape. -/
def isoOfEpoch (n : Int) : String := "1970-epoch+" ++ toString n

/-- Models the inner `timestamp` handling of `normalize_webhook_payload`
(lines 51-56 and 74-79): `timestamp_iso = None; if ts: try ... except:
timestamp_iso = None`. -/
def parseTs (ts : PyVal) : PyVal :=
  if truthy ts then
    match pyInt ts with
    | .ok n => .vstr (isoOfEpoch n)
    | .error _ => .vnone
  else .vnone

/-- Models the body of the `try` block of `normalize_webhook_payload`
(payload_processor.py lines 29-87): parse the provider envelope under the
already-extracted `meta` value. An `.ok (some p)` is a `return` of a
normalized payload, `.ok none` is falling through to the final
`return None`, and `.error` is an exception reaching the `except` clause. -/
def envelopeParse (meta : PyVal) (now : String) : Except PyErr (Option PyVal) := do
  let entries ← pyGetD meta "entry" .vnil
  let entry ← pySub entries (.vint 0)
  let changes ← pyGetD entry "changes" .vnil
  let change ← pySub changes (.vint 0)
  let value ← pyGetD change "value" .dnil
  let messages ← pyGetD value "messages" .vnone
  if truthy messages then
    let msg ← pySub messages (.vint 0)
    let contacts ← pyGetD value "contacts" .vnil
    let wa_id ←
      if truthy contacts then do
        let c0 ← pySub contacts (.vint 0)
        let w1 ← pyGetD c0 "wa_id" .vnone
        let w2 ← pyGetD c0 "waId" .vnone
        pure (pyOr w1 w2)
      else pure PyVal.vnone
    let tfield ← pyGetD msg "text" .vnone
    let text ←
      if isDict tfield then do
        let tf ← pySub msg (.vstr "text")
        pyGetD tf "body" (.vstr "")
      else do
        let mfield ← pyGetD msg "message" .vnone
        if isDict mfield then do
          let mf ← pySub msg (.vstr "message")
          pyGetD mf "body" (.vstr "")
        else pure (PyVal.vstr "")
    let i1 ← pyGetD msg "id" .vnone
    let i2 ← pyGetD msg "mid" .vnone
    let t1 ← pyGetD msg "timestamp" .vnone
    let t2 ← pyGetD msg "ts" .vnone
    let tsIso := parseTs (pyOr t1 t2)
    pure (some (pyDict [
      ("type", .vstr "message"),
      ("wa_id", wa_id),
      ("meta_msg_id", pyOr i1 i2),
      ("text", text),
      ("timestamp", pyOr tsIso (.vstr now)),
      ("direction", .vstr "inbound"),
      ("status", .vstr "delivered")]))
  else
    let statuses ← pyGetD value "statuses" .vnone
    if truthy statuses then
      let st ← pySub statuses (.vint 0)
      let mid ← pyGetD st "id" .vnone
      let sv ← pyGetD st "status" .vnone
      let ts ← pyGetD st "timestamp" .vnone
      pure (some (pyDict [
        ("type", .vstr "status"),
        ("meta_msg_id", mid),
        ("status", sv),
        ("timestamp", pyOr (parseTs ts) (.vstr now))]))
    else pure none

/-- Models `normalize_webhook_payload` (payload_processor.py lines 12-93).
`now` stands for `datetime.now(timezone.utc).isoformat()` at the moment of
the call. The outer `Except` layer records exceptions that would escape the
Python function: the function's own try/except around the envelope parse
maps any error there to `None`, so an `.error` result of this model means
the Python function raises (no branch does). -/
def normalize_webhook_payload (raw : PyVal) (now : String) : Except PyErr (Option PyVal) :=
  if isDict raw then
    let tyv := (dget raw "type").getD .vnone
    if tyv == .vstr "message" || tyv == .vstr "status" then .ok (some raw)
    else
      let meta := pyOr ((dget raw "metaData").getD .vnone)
        (pyOr ((dget raw "meta_data").getD .vnone) .dnil)
      if truthy meta then
        match envelopeParse meta now with
        | .error _ => .ok none
        | .ok r => .ok r
      else .ok none
  else .ok none

/-- A document of the `processed_messages` collection, with the fields the
batch processor writes (payload_processor.py lines 156-163); `main.py`
inserts documents with the same fields. -/
structure MsgDoc where
  wa_id : PyVal
  text : PyVal
  meta_msg_id : PyVal
  direction : PyVal
  status : PyVal
  timestamp : PyVal
deriving DecidableEq, Repr

/-- A document of the `pending_status_updates` collection
(payload_processor.py lines 189-193). -/
structure PendingDoc where
  meta_msg_id : PyVal
  new_status : PyVal
  received_at : PyVal
deriving DecidableEq, Repr

/-- The durable store: the two MongoDB collections the engine touches. -/
structure DB where
  processed_messages : List MsgDoc
  pending_status_updates : List PendingDoc
deriving DecidableEq, Repr

/-- `messages_col.find_one({"meta_msg_id": mid})`: first matching document. -/
def findMessage : List MsgDoc → PyVal → Option MsgDoc
  | [], _ => none
  | d :: rest, mid => if d.meta_msg_id == mid then some d else findMessage rest mid

/-- `pending_col.find_one({"meta_msg_id": mid})`: first matching document. -/
def findPending : List PendingDoc → PyVal → Option PendingDoc
  | [], _ => none
  | d :: rest, mid => if d.meta_msg_id == mid then some d else findPending rest mid

/-- Number of `processed_messages` documents whose `meta_msg_id` is `mid`. -/
def msgCount : List MsgDoc → PyVal → Nat
  | [], _ => 0
  | d :: rest, mid => (if d.meta_msg_id == mid then 1 else 0) + msgCount rest mid

/-- Number of `pending_status_updates` documents whose `meta_msg_id` is `mid`. -/
def pendCount : List PendingDoc → PyVal → Nat
  | [], _ => 0
  | d :: rest, mid => (if d.meta_msg_id == mid then 1 else 0) + pendCount rest mid

/-- `messages_col.update_one({"meta_msg_id": mid}, {"$set": {"status": st}})`:
set `status` on the first matching document; the returned number is
`modified_count`, which MongoDB reports as 0 when nothing matched or the
`$set` value equals the stored one. -/
def updateMessageStatus : List MsgDoc → PyVal → PyVal → List MsgDoc × Nat
  | [], _, _ => ([], 0)
  | d :: rest, mid, st =>
    if d.meta_msg_id == mid then
      if d.status == st then (d :: rest, 0)
      else ({ d with status := st } :: rest, 1)
    else
      (d :: (updateMessageStatus rest mid st).fst, (updateMessageStatus rest mid st).snd)

/-- `pending_col.update_one({"meta_msg_id": mid}, {"$set": {"new_status": st,
"received_at": t}}, upsert=True)`: set the fields on the first matching
document, or insert a fresh document when none matches. -/
def upsertPending : List PendingDoc → PyVal → PyVal → PyVal → List PendingDoc
  | [], mid, st, t => [⟨mid, st, t⟩]
  | d :: rest, mid, st, t =>
    if d.meta_msg_id == mid then { d with new_status := st, received_at := t } :: rest
    else d :: upsertPending rest mid st t

/-- `pending_col.delete_one({"meta_msg_id": mid})`: remove the first
matching document. -/
def deletePending : List PendingDoc → PyVal → List PendingDoc
  | [], _ => []
  | d :: rest, mid => if d.meta_msg_id == mid then rest else d :: deletePending rest mid

/-- The observable result of processing one normalized payload, read off the
branch taken by `process_path` (payload_processor.py lines 136-198); the
`Option PyVal` on `duplicate`/`inserted` is the pending status applied by
the drain, when one was found. -/
inductive Outcome where
  | unrecognized
  | missingId
  | duplicate (appliedPending : Option PyVal)
  | inserted (appliedPending : Option PyVal)
  | updated
  | pendingStored
  | unknownType
  | errored (e : PyErr)
deriving DecidableEq, Repr

/-- Models the per-payload body of the `try` block of `process_path`
(payload_processor.py lines 137-198) on an already-normalized payload `p`:
the message branch (dedup, insert, pending-status drain) and the status
branch (direct update or pending upsert). `now` stands for
`datetime.now(timezone.utc).isoformat()`. An `.error` result is an
exception reaching the `except` clause at line 200. -/
def process_payload (db : DB) (now : String) (p : PyVal) :
    Except PyErr (DB × Outcome) := do
  let ty ← pySub p (.vstr "type")
  if ty == .vstr "message" then
    let mid ← pyGetD p "meta_msg_id" .vnone
    if truthy mid = false then pure (db, .missingId)
    else
      match findMessage db.processed_messages mid with
      | some _ =>
          match findPending db.pending_status_updates mid with
          | some pd =>
              pure (⟨(updateMessageStatus db.processed_messages mid pd.new_status).fst,
                     deletePending db.pending_status_updates mid⟩,
                    .duplicate (some pd.new_status))
          | none => pure (db, .duplicate none)
      | none =>
          let wa ← pyGetD p "wa_id" .vnone
          let tx ← pyGetD p "text" .vnone
          let dir ← pyGetD p "direction" (.vstr "inbound")
          let st ← pyGetD p "status" (.vstr "delivered")
          let tsv ← pyGetD p "timestamp" .vnone
          let doc : MsgDoc := ⟨wa, tx, mid, dir, st, pyOr tsv (.vstr now)⟩
          let msgs1 := db.processed_messages ++ [doc]
          match findPending db.pending_status_updates mid with
          | some pd =>
              pure (⟨(updateMessageStatus msgs1 mid pd.new_status).fst,
                     deletePending db.pending_status_updates mid⟩,
                    .inserted (some pd.new_status))
          | none => pure (⟨msgs1, db.pending_status_updates⟩, .inserted none)
  else if ty == .vstr "status" then
    let mid ← pyGetD p "meta_msg_id" .vnone
    if truthy mid = false then pure (db, .missingId)
    else
      let st ← pyGetD p "status" .vnone
      let r := updateMessageStatus db.processed_messages mid st
      if r.snd > 0 then pure (⟨r.fst, db.pending_status_updates⟩, .updated)
      else
        pure (⟨db.processed_messages,
               upsertPending db.pending_status_updates mid st (.vstr now)⟩,
              .pendingStored)
  else pure (db, .unknownType)

/-- One iteration of the payload loop of `process_path` (lines 130-198):
normalize, skip falsy results, then process inside the inner try/except
(whose exceptions are recorded as an `errored` outcome and do not stop the
loop). `normalize_webhook_payload` runs OUTSIDE that try/except, so an
exception escaping it propagates out of this step. -/
def ingest (db : DB) (now : String) (raw : PyVal) : Except PyErr (DB × Outcome) := do
  let payload? ← normalize_webhook_payload raw now
  match payload? with
  | none => pure (db, .unrecognized)
  | some p =>
      if truthy p then
        match process_payload db now p with
        | .ok r => pure r
        | .error e => pure (db, .errored e)
      else pure (db, .unrecognized)

/-- The payload loop of `process_path` over an in-memory batch of parsed
payloads (file enumeration and `json.load`, lines 107-128, abstracted
away): processes items in order, threading the store. -/
def process_path (db : DB) (now : String) (raws : List PyVal) :
    Except PyErr (DB × List Outcome) := do
  match raws with
  | [] => pure (db, [])
  | r :: rest => do
      let s ← ingest db now r
      let t ← process_path s.fst now rest
      pure (t.fst, s.snd :: t.snd)

/-- The stored status of the message record for `mid`, when one exists. -/
def statusOf (db : DB) (mid : PyVal) : Option PyVal :=
  (findMessage db.processed_messages mid).map (fun d => d.status)

/-- `VALID_STATUS_TRANSITIONS` (main.py lines 66-70). -/
def VALID_STATUS_TRANSITIONS : List (String × List String) :=
  [("sent", ["delivered", "read"]), ("delivered", ["read"]), ("read", [])]

/-- `VALID_STATUS_TRANSITIONS.get(current_status, [])` where the stored
status is an arbitrary `PyVal`: non-string statuses find no key. -/
def transitionsFor (current_status : PyVal) : List String :=
  match current_status with
  | .vstr s =>
      ((VALID_STATUS_TRANSITIONS.find? (fun kv => kv.fst == s)).map Prod.snd).getD []
  | _ => []

/-- Errors `db_update_message_status` and `db_insert_message` surface as
HTTP exceptions: `InvalidStatusTransition` (status 400, main.py lines
122-125) and the generic `HTTPException(500, ...)` (line 155). -/
inductive HttpErr where
  | invalidStatusTransition (current : PyVal) (new_status : String)
  | httpError (code : Nat) (detail : String)
deriving DecidableEq, Repr

/-- Models `db_update_message_status` (main.py lines 158-179): look up the
record, validate the requested transition against
`VALID_STATUS_TRANSITIONS` (raising `InvalidStatusTransition` when the new
status is not in the legal set), then update and return `modified_count`. -/
def db_update_message_status (msgs : List MsgDoc) (meta_msg_id new_status : String) :
    Except HttpErr (List MsgDoc × Nat) :=
  match findMessage msgs (.vstr meta_msg_id) with
  | none => .ok (msgs, 0)
  | some current =>
      let current_status := current.status
      if (transitionsFor current_status).contains new_status then
        .ok (updateMessageStatus msgs (.vstr meta_msg_id) (.vstr new_status))
      else
        .error (.invalidStatusTransition current_status new_status)

/-- `insert_one` against the unique index on `meta_msg_id` that main.py
creates at startup (line 84): inserting a second document with an existing
`meta_msg_id` raises `DuplicateKeyError`. -/
def insert_one_unique (msgs : List MsgDoc) (doc : MsgDoc) : Except PyErr (List MsgDoc) :=
  if (msgs.find? (fun d => d.meta_msg_id == doc.meta_msg_id)).isSome then
    .error .duplicateKey
  else .ok (msgs ++ [doc])

/-- Models `db_insert_message` (main.py lines 142-155): stamp the document,
insert it, and re-read it; ANY exception (including the duplicate-key
error from the unique index) is caught and replaced by the generic
`HTTPException(500, "Database insert error")`. -/
def db_insert_message (msgs : List MsgDoc) (message_data : MsgDoc) (now : String) :
    Except HttpErr (List MsgDoc × Option MsgDoc) :=
  let doc := { message_data with timestamp := .vstr now }
  match insert_one_unique msgs doc with
  | .error _ => .error (.httpError 500 "Database insert error")
  | .ok msgs2 => .ok (msgs2, findMessage msgs2 doc.meta_msg_id)

/-! ## Basic lemmas about accessors and the collection operations -/

theorem dget_isDict {p : PyVal} {k : String} {x : PyVal} (h : dget p k = some x) :
    isDict p = true := by
  cases p <;> simp [dget, isDict] at h ⊢

theorem pyGetD_of_dget {p : PyVal} {k : String} {x : PyVal} (h : dget p k = some x)
    (dflt : PyVal) : pyGetD p k dflt = .ok x := by
  simp [pyGetD, dget_isDict h, h]

theorem pyGetD_of_isDict {p : PyVal} (h : isDict p = true) (k : String) (dflt : PyVal) :
    pyGetD p k dflt = .ok ((dget p k).getD dflt) := by
  simp [pyGetD, h]

theorem pySub_of_dget {p : PyVal} {k : String} {x : PyVal} (h : dget p k = some x) :
    pySub p (.vstr k) = .ok x := by
  simp [pySub, dget_isDict h, h]

theorem truthy_of_dget {p : PyVal} {k : String} {x : PyVal} (h : dget p k = some x) :
    truthy p = true := by
  cases p <;> simp [dget, truthy] at h ⊢

theorem updateMessageStatus_of_find_none {msgs : List MsgDoc} {mid : PyVal} (st : PyVal)
    (h : findMessage msgs mid = none) : updateMessageStatus msgs mid st = (msgs, 0) := by
  induction msgs with
  | nil => rfl
  | cons d rest ih =>
      unfold findMessage at h
      unfold updateMessageStatus
      by_cases hb : (d.meta_msg_id == mid) = true
      · simp [hb] at h
      · simp only [Bool.not_eq_true] at hb
        simp only [hb, if_false] at h ⊢
        simp [ih h]

theorem findMessage_update_of_find_some {msgs : List MsgDoc} {mid : PyVal} {d : MsgDoc}
    (st : PyVal) (h : findMessage msgs mid = some d) :
    findMessage (updateMessageStatus msgs mid st).fst mid =
      some (if d.status == st then d else { d with status := st }) := by
  induction msgs with
  | nil => simp [findMessage] at h
  | cons e rest ih =>
      unfold findMessage at h
      by_cases hb : (e.meta_msg_id == mid) = true
      · simp only [hb, if_true, Option.some.injEq] at h
        subst h
        unfold updateMessageStatus
        by_cases hs : (e.status == st) = true
        · simp [hb, hs, findMessage]
        · simp only [Bool.not_eq_true] at hs
          simp [hb, hs, findMessage]
      · simp only [Bool.not_eq_true] at hb
        simp only [hb, if_false] at h
        unfold updateMessageStatus
        simp only [hb, if_false]
        simpa [findMessage, hb] using ih h

theorem snd_update_of_find_some_ne {msgs : List MsgDoc} {mid : PyVal} {d : MsgDoc}
    {st : PyVal} (h : findMessage msgs mid = some d) (hne : (d.status == st) = false) :
    (updateMessageStatus msgs mid st).snd = 1 := by
  induction msgs with
  | nil => simp [findMessage] at h
  | cons e rest ih =>
      unfold findMessage at h
      by_cases hb : (e.meta_msg_id == mid) = true
      · simp only [hb, if_true, Option.some.injEq] at h
        subst h
        unfold updateMessageStatus
        simp [hb, hne]
      · simp only [Bool.not_eq_true] at hb
        simp only [hb, if_false] at h
        unfold updateMessageStatus
        simp only [hb, if_false]
        simpa using ih h

theorem update_of_find_some_eq {msgs : List MsgDoc} {mid : PyVal} {d : MsgDoc}
    {st : PyVal} (h : findMessage msgs mid = some d) (heq : d.status = st) :
    updateMessageStatus msgs mid st = (msgs, 0) := by
  induction msgs with
  | nil => simp [findMessage] at h
  | cons e rest ih =>
      unfold findMessage at h
      by_cases hb : (e.meta_msg_id == mid) = true
      · simp only [hb, if_true, Option.some.injEq] at h
        subst h
        unfold updateMessageStatus
        simp [hb, heq]
      · simp only [Bool.not_eq_true] at hb
        simp only [hb, if_false] at h
        unfold updateMessageStatus
        simp only [hb, if_false]
        simp [ih h]

theorem findMessage_append_none {msgs : List MsgDoc} {mid : PyVal}
    (h : findMessage msgs mid = none) (l : List MsgDoc) :
    findMessage (msgs ++ l) mid = findMessage l mid := by
  induction msgs with
  | nil => rfl
  | cons e rest ih =>
      unfold findMessage at h
      by_cases hb : (e.meta_msg_id == mid) = true
      · simp [hb] at h
      · simp only [Bool.not_eq_true] at hb
        simp only [hb, if_false] at h
        simpa [findMessage, hb] using ih h

theorem update_append_none {msgs : List MsgDoc} {mid : PyVal}
    (h : findMessage msgs mid = none) (l : List MsgDoc) (st : PyVal) :
    updateMessageStatus (msgs ++ l) mid st =
      (msgs ++ (updateMessageStatus l mid st).fst, (updateMessageStatus l mid st).snd) := by
  induction msgs with
  | nil => rfl
  | cons e rest ih =>
      simp only [findMessage] at h
      by_cases hb : (e.meta_msg_id == mid) = true
      · simp [hb] at h
      · simp only [Bool.not_eq_true] at hb
        simp only [hb, if_false] at h
        simp [List.cons_append, updateMessageStatus, hb, ih h]

theorem msgCount_of_find_none {msgs : List MsgDoc} {mid : PyVal}
    (h : findMessage msgs mid = none) : msgCount msgs mid = 0 := by
  induction msgs with
  | nil => rfl
  | cons e rest ih =>
      unfold findMessage at h
      by_cases hb : (e.meta_msg_id == mid) = true
      · simp [hb] at h
      · simp only [Bool.not_eq_true] at hb
        simp only [hb, if_false] at h
        unfold msgCount
        simp [hb, ih h]

theorem msgCount_append (l1 l2 : List MsgDoc) (mid : PyVal) :
    msgCount (l1 ++ l2) mid = msgCount l1 mid + msgCount l2 mid := by
  induction l1 with
  | nil => simp [msgCount]
  | cons e rest ih =>
      by_cases hb : (e.meta_msg_id == mid) = true <;> (simp [msgCount, hb, ih]; try omega)

theorem findPending_none_upsert {pend : List PendingDoc} {mid : PyVal}
    (h : findPending pend mid = none) (st t : PyVal) :
    upsertPending pend mid st t = pend ++ [⟨mid, st, t⟩] := by
  induction pend with
  | nil => rfl
  | cons e rest ih =>
      unfold findPending at h
      by_cases hb : (e.meta_msg_id == mid) = true
      · simp [hb] at h
      · simp only [Bool.not_eq_true] at hb
        simp only [hb, if_false] at h
        unfold upsertPending
        simp [hb, ih h]

theorem findPending_upsert_self (pend : List PendingDoc) (mid st t : PyVal) :
    (findPending (upsertPending pend mid st t) mid).map
        (fun pd => (pd.new_status, pd.received_at)) = some (st, t) := by
  induction pend with
  | nil => simp [upsertPending, findPending]
  | cons e rest ih =>
      unfold upsertPending
      by_cases hb : (e.meta_msg_id == mid) = true
      · simp [hb, findPending]
      · simp only [Bool.not_eq_true] at hb
        simp [hb, findPending, ih]

theorem findPending_append_none {pend : List PendingDoc} {mid : PyVal}
    (h : findPending pend mid = none) (l : List PendingDoc) :
    findPending (pend ++ l) mid = findPending l mid := by
  induction pend with
  | nil => rfl
  | cons e rest ih =>
      unfold findPending at h
      by_cases hb : (e.meta_msg_id == mid) = true
      · simp [hb] at h
      · simp only [Bool.not_eq_true] at hb
        simp only [hb, if_false] at h
        simpa [findPending, hb] using ih h

theorem deletePending_append_none {pend : List PendingDoc} {mid : PyVal}
    (h : findPending pend mid = none) (l : List PendingDoc) :
    deletePending (pend ++ l) mid = pend ++ deletePending l mid := by
  induction pend with
  | nil => rfl
  | cons e rest ih =>
      simp only [findPending] at h
      by_cases hb : (e.meta_msg_id == mid) = true
      · simp [hb] at h
      · simp only [Bool.not_eq_true] at hb
        simp only [hb, if_false] at h
        simp [List.cons_append, deletePending, hb, ih h]

theorem findPending_of_pendCount_zero {pend : List PendingDoc} {mid : PyVal}
    (h : pendCount pend mid = 0) : findPending pend mid = none := by
  induction pend with
  | nil => rfl
  | cons e rest ih =>
      unfold pendCount at h
      by_cases hb : (e.meta_msg_id == mid) = true
      · simp [hb] at h
      · simp only [Bool.not_eq_true] at hb
        simp only [hb, Bool.false_eq_true, if_false] at h
        simp only [findPending, hb, Bool.false_eq_true, if_false]
        exact ih (by omega)

theorem findPending_delete_of_count_one {pend : List PendingDoc} {mid : PyVal}
    (h : pendCount pend mid = 1) : findPending (deletePending pend mid) mid = none := by
  induction pend with
  | nil => rfl
  | cons e rest ih =>
      simp only [pendCount] at h
      by_cases hb : (e.meta_msg_id == mid) = true
      · simp only [hb, if_true] at h
        simp only [deletePending, hb, if_true]
        exact findPending_of_pendCount_zero (by omega)
      · simp only [Bool.not_eq_true] at hb
        simp only [hb, Bool.false_eq_true, if_false] at h
        simp only [deletePending, findPending, hb, Bool.false_eq_true, if_false]
        exact ih (by omega)

/-! ## Canonical event shapes and branch lemmas for the engine -/

/-- A canonical `StatusEvent` in the already-normalized wire shape that
`normalize_webhook_payload` passes through unchanged. -/
def statusEvt (mid st : PyVal) : PyVal :=
  pyDict [("type", .vstr "status"), ("meta_msg_id", mid), ("status", st)]

/-- The `processed_messages` document `process_path` builds for a message
payload `p` (payload_processor.py lines 156-163). -/
def mkDoc (p mid : PyVal) (now : String) : MsgDoc :=
  ⟨(dget p "wa_id").getD .vnone, (dget p "text").getD .vnone, mid,
   (dget p "direction").getD (.vstr "inbound"),
   (dget p "status").getD (.vstr "delivered"),
   pyOr ((dget p "timestamp").getD .vnone) (.vstr now)⟩

theorem process_message_dup_none {db : DB} {now : String} {p mid : PyVal} {d : MsgDoc}
    (hty : dget p "type" = some (.vstr "message"))
    (hmid : dget p "meta_msg_id" = some mid)
    (htr : truthy mid = true)
    (hfm : findMessage db.processed_messages mid = some d)
    (hfp : findPending db.pending_status_updates mid = none) :
    process_payload db now p = .ok (db, .duplicate none) := by
  simp only [process_payload, pySub_of_dget hty, pyGetD_of_dget hmid, htr, hfm, hfp,
    bind, Except.bind, pure, Except.pure]
  simp

theorem process_message_dup_pending {db : DB} {now : String} {p mid : PyVal}
    {d : MsgDoc} {pd : PendingDoc}
    (hty : dget p "type" = some (.vstr "message"))
    (hmid : dget p "meta_msg_id" = some mid)
    (htr : truthy mid = true)
    (hfm : findMessage db.processed_messages mid = some d)
    (hfp : findPending db.pending_status_updates mid = some pd) :
    process_payload db now p =
      .ok (⟨(updateMessageStatus db.processed_messages mid pd.new_status).fst,
            deletePending db.pending_status_updates mid⟩,
           .duplicate (some pd.new_status)) := by
  simp only [process_payload, pySub_of_dget hty, pyGetD_of_dget hmid, htr, hfm, hfp,
    bind, Except.bind, pure, Except.pure]
  simp

theorem process_message_insert_none {db : DB} {now : String} {p mid : PyVal}
    (hty : dget p "type" = some (.vstr "message"))
    (hmid : dget p "meta_msg_id" = some mid)
    (htr : truthy mid = true)
    (hfm : findMessage db.processed_messages mid = none)
    (hfp : findPending db.pending_status_updates mid = none) :
    process_payload db now p =
      .ok (⟨db.processed_messages ++ [mkDoc p mid now], db.pending_status_updates⟩,
           .inserted none) := by
  have hd : isDict p = true := dget_isDict hty
  simp only [process_payload, pySub_of_dget hty, pyGetD_of_dget hmid,
    pyGetD_of_isDict hd, htr, hfm, hfp,
    bind, Except.bind, pure, Except.pure, mkDoc]
  simp

theorem process_message_insert_pending {db : DB} {now : String} {p mid : PyVal}
    {pd : PendingDoc}
    (hty : dget p "type" = some (.vstr "message"))
    (hmid : dget p "meta_msg_id" = some mid)
    (htr : truthy mid = true)
    (hfm : findMessage db.processed_messages mid = none)
    (hfp : findPending db.pending_status_updates mid = some pd) :
    process_payload db now p =
      .ok (⟨(updateMessageStatus (db.processed_messages ++ [mkDoc p mid now])
               mid pd.new_status).fst,
            deletePending db.pending_status_updates mid⟩,
           .inserted (some pd.new_status)) := by
  have hd : isDict p = true := dget_isDict hty
  simp only [process_payload, pySub_of_dget hty, pyGetD_of_dget hmid,
    pyGetD_of_isDict hd, htr, hfm, hfp,
    bind, Except.bind, pure, Except.pure, mkDoc]
  simp

theorem process_status_updated {db : DB} {now : String} {mid st : PyVal} {d : MsgDoc}
    (htr : truthy mid = true)
    (hfm : findMessage db.processed_messages mid = some d)
    (hne : (d.status == st) = false) :
    process_payload db now (statusEvt mid st) =
      .ok (⟨(updateMessageStatus db.processed_messages mid st).fst,
            db.pending_status_updates⟩, .updated) := by
  have hty : dget (statusEvt mid st) "type" = some (.vstr "status") := rfl
  have hmid : dget (statusEvt mid st) "meta_msg_id" = some mid := rfl
  have hst : dget (statusEvt mid st) "status" = some st := rfl
  have hsnd := @snd_update_of_find_some_ne db.processed_messages mid d st hfm hne
  simp only [process_payload, pySub_of_dget hty, pyGetD_of_dget hmid,
    pyGetD_of_dget hst, htr, hsnd,
    bind, Except.bind, pure, Except.pure]
  simp

theorem process_status_buffered {db : DB} {now : String} {mid st : PyVal}
    (htr : truthy mid = true)
    (h0 : (updateMessageStatus db.processed_messages mid st).snd = 0) :
    process_payload db now (statusEvt mid st) =
      .ok (⟨db.processed_messages,
            upsertPending db.pending_status_updates mid st (.vstr now)⟩,
           .pendingStored) := by
  have hty : dget (statusEvt mid st) "type" = some (.vstr "status") := rfl
  have hmid : dget (statusEvt mid st) "meta_msg_id" = some mid := rfl
  have hst : dget (statusEvt mid st) "status" = some st := rfl
  simp only [process_payload, pySub_of_dget hty, pyGetD_of_dget hmid,
    pyGetD_of_dget hst, htr, h0,
    bind, Except.bind, pure, Except.pure]
  simp

theorem ingest_passthrough {db : DB} {now : String} {p : PyVal} {ty : String}
    (h : dget p "type" = some (.vstr ty))
    (hty : ty = "message" ∨ ty = "status") :
    ingest db now p =
      match process_payload db now p with
      | .ok r => .ok r
      | .error e => .ok (db, .errored e) := by
  have hd : isDict p = true := dget_isDict h
  have htp : truthy p = true := truthy_of_dget h
  have hpass : (((dget p "type").getD .vnone == PyVal.vstr "message")
      || ((dget p "type").getD .vnone == PyVal.vstr "status")) = true := by
    rcases hty with h1 | h1 <;> subst h1 <;> simp [h]
  simp only [ingest, normalize_webhook_payload, hd, if_true, hpass,
    bind, Except.bind, pure, Except.pure, htp]

theorem ingest_of_process {db : DB} {now : String} {p : PyVal} {ty : String}
    {r : DB × Outcome}
    (h : dget p "type" = some (.vstr ty))
    (hty : ty = "message" ∨ ty = "status")
    (hp : process_payload db now p = .ok r) :
    ingest db now p = .ok r := by
  rw [ingest_passthrough h hty, hp]

theorem statusOf_after_update {msgs : List MsgDoc} {mid : PyVal} {d : MsgDoc} (st : PyVal)
    (h : findMessage msgs mid = some d) (pend : List PendingDoc) :
    statusOf ⟨(updateMessageStatus msgs mid st).fst, pend⟩ mid = some st := by
  have hu := findMessage_update_of_find_some st h
  by_cases hs : (d.status == st) = true
  · have heq : d.status = st := by simpa using hs
    simp [statusOf, hu, hs, heq]
  · simp only [Bool.not_eq_true] at hs
    simp [statusOf, hu, hs]

/-! ## Claim C1: monotonicity of `read` -/

/-- C1 counterexample: the batch engine (`process_path` status branch,
payload_processor.py lines 176-195) applies a `StatusEvent(sent)` to a
record stored at `read` unconditionally, so the stored status changes away
from `read`, contradicting the claim that it stays `read`. -/
theorem C1_counterexample :
    ingest ⟨[⟨.vstr "c1", .vstr "hi", .vstr "m1", .vstr "inbound", .vstr "read", .vstr "t0"⟩], []⟩
        "T1" (statusEvt (.vstr "m1") (.vstr "sent"))
      = .ok (⟨[⟨.vstr "c1", .vstr "hi", .vstr "m1", .vstr "inbound", .vstr "sent", .vstr "t0"⟩],
              []⟩, .updated) := by
  rfl

/-- C1 (amended): once a record's stored status is `read`, the HTTP-path
helper `db_update_message_status` rejects every requested transition by
raising `InvalidStatusTransition` and performs no update, so via that path
the stored status stays `read`; the batch processor however applies any
different requested status unconditionally (see the counterexample). -/
theorem C1_read_terminal_http (msgs : List MsgDoc) (mid new_status : String) (d : MsgDoc)
    (hf : findMessage msgs (.vstr mid) = some d)
    (hr : d.status = .vstr "read") :
    db_update_message_status msgs mid new_status
      = .error (.invalidStatusTransition (.vstr "read") new_status) := by
  have ht : transitionsFor (PyVal.vstr "read") = [] := rfl
  simp [db_update_message_status, hf, hr, ht]

/-- Witness for C1: a concrete record at `read` and a requested `delivered`. -/
theorem C1_read_terminal_http_witness :
    db_update_message_status
        [⟨.vstr "c1", .vstr "hi", .vstr "m1", .vstr "inbound", .vstr "read", .vstr "t0"⟩]
        "m1" "delivered"
      = .error (.invalidStatusTransition (.vstr "read") "delivered") :=
  C1_read_terminal_http _ "m1" "delivered"
    ⟨.vstr "c1", .vstr "hi", .vstr "m1", .vstr "inbound", .vstr "read", .vstr "t0"⟩
    (by rfl) (by rfl)

/-! ## Claim C2: illegal transitions -/

/-- C2 counterexample: a record at `delivered` receiving `StatusEvent(sent)`
in the batch engine is mutated to `sent` with an update outcome, not left
unchanged with a `StatusIgnored` outcome as the claim states. -/
theorem C2_counterexample :
    ingest ⟨[⟨.vstr "c1", .vstr "hi", .vstr "m1", .vstr "inbound", .vstr "delivered", .vstr "t0"⟩],
            []⟩
        "T1" (statusEvt (.vstr "m1") (.vstr "sent"))
      = .ok (⟨[⟨.vstr "c1", .vstr "hi", .vstr "m1", .vstr "inbound", .vstr "sent", .vstr "t0"⟩],
              []⟩, .updated) := by
  rfl

/-- C2 (amended): the batch engine validates nothing: a `StatusEvent` whose
requested status differs from the stored one is applied (mutating the
record), and a repeat of the current status leaves the record unchanged but
upserts a pending entry (`StatusBuffered`); in both cases no error reaches
the caller. The HTTP-path helper `db_update_message_status` does leave the
record unchanged on an illegal transition, but raises
`InvalidStatusTransition` instead of silently ignoring it. -/
theorem C2_illegal_transition_behavior :
    (∀ (db : DB) (now : String) (mid st : PyVal) (d : MsgDoc),
        truthy mid = true →
        findMessage db.processed_messages mid = some d →
        (d.status == st) = false →
        ∃ db2, ingest db now (statusEvt mid st) = .ok (db2, .updated) ∧
          statusOf db2 mid = some st ∧
          db2.pending_status_updates = db.pending_status_updates) ∧
    (∀ (db : DB) (now : String) (mid st : PyVal) (d : MsgDoc),
        truthy mid = true →
        findMessage db.processed_messages mid = some d →
        d.status = st →
        ingest db now (statusEvt mid st) =
          .ok (⟨db.processed_messages,
                upsertPending db.pending_status_updates mid st (.vstr now)⟩,
               .pendingStored)) ∧
    (∀ (msgs : List MsgDoc) (mid new_status : String) (d : MsgDoc),
        findMessage msgs (.vstr mid) = some d →
        (transitionsFor d.status).contains new_status = false →
        db_update_message_status msgs mid new_status
          = .error (.invalidStatusTransition d.status new_status)) := by
  refine ⟨?_, ?_, ?_⟩
  · intro db now mid st d htr hfm hne
    refine ⟨⟨(updateMessageStatus db.processed_messages mid st).fst,
             db.pending_status_updates⟩, ?_, ?_, rfl⟩
    · rw [ingest_passthrough (show dget (statusEvt mid st) "type"
            = some (PyVal.vstr "status") from rfl) (Or.inr rfl),
          process_status_updated htr hfm hne]
    · have := findMessage_update_of_find_some st hfm
      simp only [hne, Bool.false_eq_true, if_false] at this
      simp [statusOf, this]
  · intro db now mid st d htr hfm heq
    rw [ingest_passthrough (show dget (statusEvt mid st) "type"
          = some (PyVal.vstr "status") from rfl) (Or.inr rfl),
        process_status_buffered htr (by rw [update_of_find_some_eq hfm heq])]
  · intro msgs mid new_status d hf hcon
    simp only [db_update_message_status, hf, hcon, Bool.false_eq_true, if_false]

/-- Witness for C2: instantiates the first conjunct at a concrete store
with a record at `delivered` and a requested `sent`. -/
theorem C2_illegal_transition_behavior_witness :
    ∃ db2,
      ingest ⟨[⟨.vstr "c1", .vstr "hi", .vstr "m1", .vstr "inbound", .vstr "delivered",
                .vstr "t0"⟩], []⟩
          "T1" (statusEvt (.vstr "m1") (.vstr "sent")) = .ok (db2, .updated) ∧
      statusOf db2 (.vstr "m1") = some (.vstr "sent") ∧
      db2.pending_status_updates = [] :=
  C2_illegal_transition_behavior.1
    ⟨[⟨.vstr "c1", .vstr "hi", .vstr "m1", .vstr "inbound", .vstr "delivered", .vstr "t0"⟩], []⟩
    "T1" (.vstr "m1") (.vstr "sent")
    ⟨.vstr "c1", .vstr "hi", .vstr "m1", .vstr "inbound", .vstr "delivered", .vstr "t0"⟩
    (by rfl) (by rfl) (by rfl)

/-! ## Claim C3: idempotent insertion and the duplicate path -/

/-- C3 counterexample: `db_insert_message` surfaces the unique-index
violation on `meta_msg_id` as the generic `HTTPException(500, "Database
insert error")`, not as an `AlreadyExists`/`Duplicate` outcome, because its
`except` clause catches every exception (main.py lines 153-155). -/
theorem C3_counterexample :
    db_insert_message
        [⟨.vstr "c1", .vstr "hi", .vstr "m1", .vstr "inbound", .vstr "sent", .vstr "t0"⟩]
        ⟨.vstr "c1", .vstr "more", .vstr "m1", .vstr "inbound", .vstr "sent", .vnone⟩ "T9"
      = .error (.httpError 500 "Database insert error") := by
  rfl

/-- C3 (amended): in the batch engine, ingesting the same `MessageEvent`
twice leaves exactly one stored record for its id and the second ingest
takes the duplicate path without touching the store; this dedup comes from
a find-before-insert check, while `db_insert_message` maps the store's
uniqueness violation to a generic 500 error (see the counterexample). -/
theorem C3_batch_idempotent (db : DB) (now1 now2 : String) (p mid : PyVal)
    (hty : dget p "type" = some (.vstr "message"))
    (hmid : dget p "meta_msg_id" = some mid)
    (htr : truthy mid = true)
    (hfm : findMessage db.processed_messages mid = none)
    (hfp : findPending db.pending_status_updates mid = none) :
    ∃ db1, ingest db now1 p = .ok (db1, .inserted none) ∧
      msgCount db1.processed_messages mid = 1 ∧
      ingest db1 now2 p = .ok (db1, .duplicate none) := by
  refine ⟨⟨db.processed_messages ++ [mkDoc p mid now1], db.pending_status_updates⟩, ?_, ?_, ?_⟩
  · rw [ingest_passthrough hty (Or.inl rfl),
        process_message_insert_none hty hmid htr hfm hfp]
  · rw [msgCount_append, msgCount_of_find_none hfm]
    simp [msgCount, mkDoc]
  · have hfm1 : findMessage (db.processed_messages ++ [mkDoc p mid now1]) mid
        = some (mkDoc p mid now1) := by
      rw [findMessage_append_none hfm]
      simp [findMessage, mkDoc]
    exact ingest_of_process hty (Or.inl rfl)
      (@process_message_dup_none
        ⟨db.processed_messages ++ [mkDoc p mid now1], db.pending_status_updates⟩
        now2 p mid (mkDoc p mid now1) hty hmid htr hfm1 hfp)

/-- Witness for C3: a concrete message payload ingested twice into an empty
store. -/
theorem C3_batch_idempotent_witness :
    ∃ db1,
      ingest ⟨[], []⟩ "T0"
          (pyDict [("type", .vstr "message"), ("wa_id", .vstr "c1"),
                   ("meta_msg_id", .vstr "m1"), ("text", .vstr "hi")])
        = .ok (db1, .inserted none) ∧
      msgCount db1.processed_messages (.vstr "m1") = 1 ∧
      ingest db1 "T1"
          (pyDict [("type", .vstr "message"), ("wa_id", .vstr "c1"),
                   ("meta_msg_id", .vstr "m1"), ("text", .vstr "hi")])
        = .ok (db1, .duplicate none) :=
  C3_batch_idempotent ⟨[], []⟩ "T0" "T1"
    (pyDict [("type", .vstr "message"), ("wa_id", .vstr "c1"),
             ("meta_msg_id", .vstr "m1"), ("text", .vstr "hi")])
    (.vstr "m1") (by rfl) (by rfl) (by rfl) (by rfl) (by rfl)

/-! ## Claim C4: order independence for `delivered` -/

/-- C4: for a fresh id, ingesting `StatusEvent(delivered)` before the
`MessageEvent` and ingesting them in the reverse order both leave the
stored status at `delivered` (in the batch engine). -/
theorem C4_order_independence (db : DB) (nowA nowB : String) (p mid : PyVal)
    (hty : dget p "type" = some (.vstr "message"))
    (hmid : dget p "meta_msg_id" = some mid)
    (htr : truthy mid = true)
    (hfm : findMessage db.processed_messages mid = none)
    (hfp : findPending db.pending_status_updates mid = none) :
    (∃ d1 d2, ingest db nowA (statusEvt mid (.vstr "delivered")) = .ok (d1, .pendingStored) ∧
        ingest d1 nowB p = .ok (d2, .inserted (some (.vstr "delivered"))) ∧
        statusOf d2 mid = some (.vstr "delivered")) ∧
    (∃ d1 o2 d2, ingest db nowA p = .ok (d1, .inserted none) ∧
        ingest d1 nowB (statusEvt mid (.vstr "delivered")) = .ok (d2, o2) ∧
        statusOf d2 mid = some (.vstr "delivered")) := by
  constructor
  · -- StatusEvent first, MessageEvent second
    refine ⟨⟨db.processed_messages,
             db.pending_status_updates ++ [⟨mid, .vstr "delivered", .vstr nowA⟩]⟩, ?_⟩
    have hfp1 : findPending
        (db.pending_status_updates ++ [⟨mid, .vstr "delivered", .vstr nowA⟩]) mid
        = some ⟨mid, .vstr "delivered", .vstr nowA⟩ := by
      rw [findPending_append_none hfp]
      simp [findPending]
    have hfm2 : findMessage (db.processed_messages ++ [mkDoc p mid nowB]) mid
        = some (mkDoc p mid nowB) := by
      rw [findMessage_append_none hfm]
      simp [findMessage, mkDoc]
    refine ⟨⟨(updateMessageStatus (db.processed_messages ++ [mkDoc p mid nowB]) mid
              (.vstr "delivered")).fst,
             deletePending (db.pending_status_updates ++
               [⟨mid, .vstr "delivered", .vstr nowA⟩]) mid⟩, ?_, ?_, ?_⟩
    · rw [ingest_passthrough (show dget (statusEvt mid (.vstr "delivered")) "type"
            = some (PyVal.vstr "status") from rfl) (Or.inr rfl),
          process_status_buffered htr (by rw [updateMessageStatus_of_find_none _ hfm]),
          findPending_none_upsert hfp]
    · exact ingest_of_process hty (Or.inl rfl)
        (@process_message_insert_pending
          ⟨db.processed_messages,
           db.pending_status_updates ++ [⟨mid, .vstr "delivered", .vstr nowA⟩]⟩
          nowB p mid ⟨mid, .vstr "delivered", .vstr nowA⟩ hty hmid htr hfm hfp1)
    · exact statusOf_after_update _ hfm2 _
  · -- MessageEvent first, StatusEvent second
    have hfm2 : findMessage (db.processed_messages ++ [mkDoc p mid nowA]) mid
        = some (mkDoc p mid nowA) := by
      rw [findMessage_append_none hfm]
      simp [findMessage, mkDoc]
    refine ⟨⟨db.processed_messages ++ [mkDoc p mid nowA], db.pending_status_updates⟩, ?_⟩
    by_cases hs : ((mkDoc p mid nowA).status == .vstr "delivered") = true
    · have heq : (mkDoc p mid nowA).status = .vstr "delivered" := by simpa using hs
      refine ⟨.pendingStored,
        ⟨db.processed_messages ++ [mkDoc p mid nowA],
         upsertPending db.pending_status_updates mid (.vstr "delivered") (.vstr nowB)⟩,
        ?_, ?_, ?_⟩
      · rw [ingest_passthrough hty (Or.inl rfl),
            process_message_insert_none hty hmid htr hfm hfp]
      · exact ingest_of_process (show dget (statusEvt mid (.vstr "delivered")) "type"
            = some (PyVal.vstr "status") from rfl) (Or.inr rfl)
          (@process_status_buffered
            ⟨db.processed_messages ++ [mkDoc p mid nowA], db.pending_status_updates⟩
            nowB mid (.vstr "delivered") htr
            (by rw [update_of_find_some_eq hfm2 heq]))
      · simp [statusOf, hfm2, heq]
    · simp only [Bool.not_eq_true] at hs
      refine ⟨.updated,
        ⟨(updateMessageStatus (db.processed_messages ++ [mkDoc p mid nowA]) mid
            (.vstr "delivered")).fst, db.pending_status_updates⟩, ?_, ?_, ?_⟩
      · rw [ingest_passthrough hty (Or.inl rfl),
            process_message_insert_none hty hmid htr hfm hfp]
      · exact ingest_of_process (show dget (statusEvt mid (.vstr "delivered")) "type"
            = some (PyVal.vstr "status") from rfl) (Or.inr rfl)
          (@process_status_updated
            ⟨db.processed_messages ++ [mkDoc p mid nowA], db.pending_status_updates⟩
            nowB mid (.vstr "delivered") (mkDoc p mid nowA) htr hfm2 hs)
      · exact statusOf_after_update _ hfm2 _

/-- Witness for C4: concrete fresh id on an empty store. -/
theorem C4_order_independence_witness :
    (∃ d1 d2, ingest ⟨[], []⟩ "T0" (statusEvt (.vstr "m1") (.vstr "delivered"))
          = .ok (d1, .pendingStored) ∧
        ingest d1 "T1"
            (pyDict [("type", .vstr "message"), ("wa_id", .vstr "c1"),
                     ("meta_msg_id", .vstr "m1"), ("text", .vstr "hi")])
          = .ok (d2, .inserted (some (.vstr "delivered"))) ∧
        statusOf d2 (.vstr "m1") = some (.vstr "delivered")) ∧
    (∃ d1 o2 d2, ingest ⟨[], []⟩ "T0"
            (pyDict [("type", .vstr "message"), ("wa_id", .vstr "c1"),
                     ("meta_msg_id", .vstr "m1"), ("text", .vstr "hi")])
          = .ok (d1, .inserted none) ∧
        ingest d1 "T1" (statusEvt (.vstr "m1") (.vstr "delivered")) = .ok (d2, o2) ∧
        statusOf d2 (.vstr "m1") = some (.vstr "delivered")) :=
  C4_order_independence ⟨[], []⟩ "T0" "T1"
    (pyDict [("type", .vstr "message"), ("wa_id", .vstr "c1"),
             ("meta_msg_id", .vstr "m1"), ("text", .vstr "hi")])
    (.vstr "m1") (by rfl) (by rfl) (by rfl) (by rfl) (by rfl)

/-! ## Claim C5: status for an absent message is buffered, not an error -/

/-- C5: a `StatusEvent` whose id matches no stored message upserts a
pending entry carrying the requested status (overwriting any previous
pending value for that id: the surviving entry holds the new status and
time), the messages collection is untouched, and the outcome is the
buffered one, with no error surfaced. -/
theorem C5_status_buffered_for_missing (db : DB) (now : String) (mid st : PyVal)
    (htr : truthy mid = true)
    (hfm : findMessage db.processed_messages mid = none) :
    ingest db now (statusEvt mid st)
      = .ok (⟨db.processed_messages,
              upsertPending db.pending_status_updates mid st (.vstr now)⟩,
             .pendingStored) ∧
    (findPending (upsertPending db.pending_status_updates mid st (.vstr now)) mid).map
        (fun pd => (pd.new_status, pd.received_at)) = some (st, .vstr now) := by
  refine ⟨?_, findPending_upsert_self _ _ _ _⟩
  rw [ingest_passthrough (show dget (statusEvt mid st) "type"
        = some (PyVal.vstr "status") from rfl) (Or.inr rfl),
      process_status_buffered htr (by rw [updateMessageStatus_of_find_none _ hfm])]

/-- Witness for C5: concrete status event against a store already holding a
pending entry for the same id, which gets overwritten. -/
theorem C5_status_buffered_for_missing_witness :
    ingest ⟨[], [⟨.vstr "m1", .vstr "sent", .vstr "t0"⟩]⟩ "T1"
        (statusEvt (.vstr "m1") (.vstr "read"))
      = .ok (⟨[], upsertPending [⟨.vstr "m1", .vstr "sent", .vstr "t0"⟩]
               (.vstr "m1") (.vstr "read") (.vstr "T1")⟩, .pendingStored) ∧
    (findPending (upsertPending [⟨.vstr "m1", .vstr "sent", .vstr "t0"⟩]
        (.vstr "m1") (.vstr "read") (.vstr "T1")) (.vstr "m1")).map
        (fun pd => (pd.new_status, pd.received_at)) = some (.vstr "read", .vstr "T1") :=
  C5_status_buffered_for_missing ⟨[], [⟨.vstr "m1", .vstr "sent", .vstr "t0"⟩]⟩ "T1"
    (.vstr "m1") (.vstr "read") (by rfl) (by rfl)

/-! ## Claim C6: the buffer drains exactly once -/

/-- C6: for an unseen id, `StatusEvent(read)` is buffered; the following
`MessageEvent` stores the message with status `read` and removes the
pending entry; a second identical `MessageEvent` is a duplicate that
changes nothing and applies no status. -/
theorem C6_buffer_drains_once (db : DB) (now0 now1 now2 : String) (p mid : PyVal)
    (hty : dget p "type" = some (.vstr "message"))
    (hmid : dget p "meta_msg_id" = some mid)
    (htr : truthy mid = true)
    (hfm : findMessage db.processed_messages mid = none)
    (hfp : findPending db.pending_status_updates mid = none) :
    ∃ d1 d2, ingest db now0 (statusEvt mid (.vstr "read")) = .ok (d1, .pendingStored) ∧
      ingest d1 now1 p = .ok (d2, .inserted (some (.vstr "read"))) ∧
      statusOf d2 mid = some (.vstr "read") ∧
      findPending d2.pending_status_updates mid = none ∧
      ingest d2 now2 p = .ok (d2, .duplicate none) := by
  have hfp1 : findPending
      (db.pending_status_updates ++ [⟨mid, .vstr "read", .vstr now0⟩]) mid
      = some ⟨mid, .vstr "read", .vstr now0⟩ := by
    rw [findPending_append_none hfp]
    simp [findPending]
  have hfm2 : findMessage (db.processed_messages ++ [mkDoc p mid now1]) mid
      = some (mkDoc p mid now1) := by
    rw [findMessage_append_none hfm]
    simp [findMessage, mkDoc]
  have hdel : deletePending
      (db.pending_status_updates ++ [⟨mid, .vstr "read", .vstr now0⟩]) mid
      = db.pending_status_updates := by
    rw [deletePending_append_none hfp]
    simp [deletePending]
  refine ⟨⟨db.processed_messages,
           db.pending_status_updates ++ [⟨mid, .vstr "read", .vstr now0⟩]⟩,
          ⟨(updateMessageStatus (db.processed_messages ++ [mkDoc p mid now1]) mid
              (.vstr "read")).fst, db.pending_status_updates⟩, ?_, ?_, ?_, ?_, ?_⟩
  · rw [ingest_passthrough (show dget (statusEvt mid (.vstr "read")) "type"
          = some (PyVal.vstr "status") from rfl) (Or.inr rfl),
        process_status_buffered htr (by rw [updateMessageStatus_of_find_none _ hfm]),
        findPending_none_upsert hfp]
  · have hstep := ingest_of_process hty (Or.inl rfl)
      (@process_message_insert_pending
        ⟨db.processed_messages,
         db.pending_status_updates ++ [⟨mid, .vstr "read", .vstr now0⟩]⟩
        now1 p mid ⟨mid, .vstr "read", .vstr now0⟩ hty hmid htr hfm hfp1)
    rw [hdel] at hstep
    exact hstep
  · exact statusOf_after_update _ hfm2 _
  · exact hfp
  · have hfm3 : findMessage (updateMessageStatus
        (db.processed_messages ++ [mkDoc p mid now1]) mid (.vstr "read")).fst mid
        = some (if (mkDoc p mid now1).status == .vstr "read" then mkDoc p mid now1
                else { mkDoc p mid now1 with status := .vstr "read" }) :=
      findMessage_update_of_find_some _ hfm2
    exact ingest_of_process hty (Or.inl rfl)
      (@process_message_dup_none
        ⟨(updateMessageStatus (db.processed_messages ++ [mkDoc p mid now1]) mid
            (.vstr "read")).fst, db.pending_status_updates⟩
        now2 p mid _ hty hmid htr hfm3 hfp)

/-- Witness for C6: concrete run on an empty store. -/
theorem C6_buffer_drains_once_witness :
    ∃ d1 d2, ingest ⟨[], []⟩ "T0" (statusEvt (.vstr "X") (.vstr "read"))
        = .ok (d1, .pendingStored) ∧
      ingest d1 "T1"
          (pyDict [("type", .vstr "message"), ("wa_id", .vstr "c1"),
                   ("meta_msg_id", .vstr "X"), ("text", .vstr "hi")])
        = .ok (d2, .inserted (some (.vstr "read"))) ∧
      statusOf d2 (.vstr "X") = some (.vstr "read") ∧
      findPending d2.pending_status_updates (.vstr "X") = none ∧
      ingest d2 "T2"
          (pyDict [("type", .vstr "message"), ("wa_id", .vstr "c1"),
                   ("meta_msg_id", .vstr "X"), ("text", .vstr "hi")])
        = .ok (d2, .duplicate none) :=
  C6_buffer_drains_once ⟨[], []⟩ "T0" "T1" "T2"
    (pyDict [("type", .vstr "message"), ("wa_id", .vstr "c1"),
             ("meta_msg_id", .vstr "X"), ("text", .vstr "hi")])
    (.vstr "X") (by rfl) (by rfl) (by rfl) (by rfl) (by rfl)

/-! ## Claim C7: the pending-status drain does not validate transitions -/

/-- C7 counterexample: buffering `sent` for an unseen id and then ingesting
its `MessageEvent` (whose record is inserted at the default `delivered`)
applies the buffered `sent` — a `delivered → sent` regression that the
Status Rules table forbids — instead of deleting the stale entry without
applying it, as the claim states. -/
theorem C7_counterexample :
    process_path ⟨[], []⟩ "T0"
        [statusEvt (.vstr "X") (.vstr "sent"),
         pyDict [("type", .vstr "message"), ("wa_id", .vstr "c1"),
                 ("meta_msg_id", .vstr "X"), ("text", .vstr "hi")]]
      = .ok (⟨[⟨.vstr "c1", .vstr "hi", .vstr "X", .vstr "inbound", .vstr "sent", .vstr "T0"⟩],
              []⟩, [.pendingStored, .inserted (some (.vstr "sent"))]) := by
  rfl

/-- C7 (amended): during the drain performed on a `MessageEvent` (new or
duplicate), the buffered `desiredStatus` is applied to the record and the
pending entry deleted UNCONDITIONALLY: the batch processor never consults
the Status Rules, so legal and illegal buffered transitions alike end up
applied. -/
theorem C7_drain_applies_unconditionally (db : DB) (now : String) (p mid : PyVal)
    (pd : PendingDoc)
    (hty : dget p "type" = some (.vstr "message"))
    (hmid : dget p "meta_msg_id" = some mid)
    (htr : truthy mid = true)
    (hfp : findPending db.pending_status_updates mid = some pd)
    (hc1 : pendCount db.pending_status_updates mid = 1) :
    ∃ db2 o, ingest db now p = .ok (db2, o) ∧
      statusOf db2 mid = some pd.new_status ∧
      findPending db2.pending_status_updates mid = none ∧
      (o = .duplicate (some pd.new_status) ∨ o = .inserted (some pd.new_status)) := by
  cases hm : findMessage db.processed_messages mid with
  | some d =>
      refine ⟨⟨(updateMessageStatus db.processed_messages mid pd.new_status).fst,
               deletePending db.pending_status_updates mid⟩,
              .duplicate (some pd.new_status), ?_, ?_, ?_, Or.inl rfl⟩
      · exact ingest_of_process hty (Or.inl rfl)
          (process_message_dup_pending hty hmid htr hm hfp)
      · exact statusOf_after_update _ hm _
      · exact findPending_delete_of_count_one hc1
  | none =>
      have hfm2 : findMessage (db.processed_messages ++ [mkDoc p mid now]) mid
          = some (mkDoc p mid now) := by
        rw [findMessage_append_none hm]
        simp [findMessage, mkDoc]
      refine ⟨⟨(updateMessageStatus (db.processed_messages ++ [mkDoc p mid now]) mid
                pd.new_status).fst,
               deletePending db.pending_status_updates mid⟩,
              .inserted (some pd.new_status), ?_, ?_, ?_, Or.inr rfl⟩
      · exact ingest_of_process hty (Or.inl rfl)
          (process_message_insert_pending hty hmid htr hm hfp)
      · exact statusOf_after_update _ hfm2 _
      · exact findPending_delete_of_count_one hc1

/-- Witness for C7: the buffered `sent` is applied over a record inserted
at `delivered`. -/
theorem C7_drain_applies_unconditionally_witness :
    ∃ db2 o,
      ingest ⟨[], [⟨.vstr "X", .vstr "sent", .vstr "t0"⟩]⟩ "T1"
          (pyDict [("type", .vstr "message"), ("wa_id", .vstr "c1"),
                   ("meta_msg_id", .vstr "X"), ("text", .vstr "hi")])
        = .ok (db2, o) ∧
      statusOf db2 (.vstr "X")
        = some (PendingDoc.new_status ⟨.vstr "X", .vstr "sent", .vstr "t0"⟩) ∧
      findPending db2.pending_status_updates (.vstr "X") = none ∧
      (o = .duplicate (some (PendingDoc.new_status ⟨.vstr "X", .vstr "sent", .vstr "t0"⟩)) ∨
       o = .inserted (some (PendingDoc.new_status ⟨.vstr "X", .vstr "sent", .vstr "t0"⟩))) :=
  C7_drain_applies_unconditionally ⟨[], [⟨.vstr "X", .vstr "sent", .vstr "t0"⟩]⟩ "T1"
    (pyDict [("type", .vstr "message"), ("wa_id", .vstr "c1"),
             ("meta_msg_id", .vstr "X"), ("text", .vstr "hi")])
    (.vstr "X") ⟨.vstr "X", .vstr "sent", .vstr "t0"⟩
    (by rfl) (by rfl) (by rfl) (by rfl) (by rfl)

/-! ## Claim C10: a no-op status repeat buffers a pending entry -/

/-- C10: the batch engine decides "message exists" by `modified_count > 0`,
so a `StatusEvent` requesting exactly the status an existing record already
holds takes the pending-upsert path: the record is untouched, a pending
entry for the already-observed id is created, and the next duplicate
`MessageEvent` for that id applies and removes it. -/
theorem C10_noop_status_buffers (db : DB) (now1 now2 : String) (p mid st : PyVal)
    (d : MsgDoc)
    (hty : dget p "type" = some (.vstr "message"))
    (hmid : dget p "meta_msg_id" = some mid)
    (htr : truthy mid = true)
    (hfm : findMessage db.processed_messages mid = some d)
    (hst : d.status = st)
    (hfp : findPending db.pending_status_updates mid = none) :
    ∃ d1, ingest db now1 (statusEvt mid st) = .ok (d1, .pendingStored) ∧
      d1.processed_messages = db.processed_messages ∧
      (findPending d1.pending_status_updates mid).map
          (fun pd => (pd.new_status, pd.received_at)) = some (st, .vstr now1) ∧
      ingest d1 now2 p = .ok (db, .duplicate (some st)) := by
  refine ⟨⟨db.processed_messages,
           db.pending_status_updates ++ [⟨mid, st, .vstr now1⟩]⟩, ?_, rfl, ?_, ?_⟩
  · rw [ingest_passthrough (show dget (statusEvt mid st) "type"
          = some (PyVal.vstr "status") from rfl) (Or.inr rfl),
        process_status_buffered htr (by rw [update_of_find_some_eq hfm hst]),
        findPending_none_upsert hfp]
  · rw [← findPending_none_upsert hfp]
    exact findPending_upsert_self _ _ _ _
  · have hfp1 : findPending
        (db.pending_status_updates ++ [⟨mid, st, .vstr now1⟩]) mid
        = some ⟨mid, st, .vstr now1⟩ := by
      rw [findPending_append_none hfp]
      simp [findPending]
    have hstep := ingest_of_process hty (Or.inl rfl)
      (@process_message_dup_pending
        ⟨db.processed_messages, db.pending_status_updates ++ [⟨mid, st, .vstr now1⟩]⟩
        now2 p mid d ⟨mid, st, .vstr now1⟩ hty hmid htr hfm hfp1)
    rw [update_of_find_some_eq hfm hst] at hstep
    have hdel : deletePending
        (db.pending_status_updates ++ [⟨mid, st, .vstr now1⟩]) mid
        = db.pending_status_updates := by
      rw [deletePending_append_none hfp]
      simp [deletePending]
    rw [hdel] at hstep
    exact hstep

/-- Witness for C10: a record at `delivered` receiving `delivered` again. -/
theorem C10_noop_status_buffers_witness :
    ∃ d1,
      ingest ⟨[⟨.vstr "c1", .vstr "hi", .vstr "m1", .vstr "inbound", .vstr "delivered",
                .vstr "t0"⟩], []⟩ "T1"
          (statusEvt (.vstr "m1") (.vstr "delivered")) = .ok (d1, .pendingStored) ∧
      d1.processed_messages
        = [⟨.vstr "c1", .vstr "hi", .vstr "m1", .vstr "inbound", .vstr "delivered",
            .vstr "t0"⟩] ∧
      (findPending d1.pending_status_updates (.vstr "m1")).map
          (fun pd => (pd.new_status, pd.received_at))
        = some (.vstr "delivered", .vstr "T1") ∧
      ingest d1 "T2"
          (pyDict [("type", .vstr "message"), ("wa_id", .vstr "c1"),
                   ("meta_msg_id", .vstr "m1"), ("text", .vstr "hi")])
        = .ok (⟨[⟨.vstr "c1", .vstr "hi", .vstr "m1", .vstr "inbound", .vstr "delivered",
                  .vstr "t0"⟩], []⟩, .duplicate (some (.vstr "delivered"))) :=
  C10_noop_status_buffers
    ⟨[⟨.vstr "c1", .vstr "hi", .vstr "m1", .vstr "inbound", .vstr "delivered", .vstr "t0"⟩], []⟩
    "T1" "T2"
    (pyDict [("type", .vstr "message"), ("wa_id", .vstr "c1"),
             ("meta_msg_id", .vstr "m1"), ("text", .vstr "hi")])
    (.vstr "m1") (.vstr "delivered")
    ⟨.vstr "c1", .vstr "hi", .vstr "m1", .vstr "inbound", .vstr "delivered", .vstr "t0"⟩
    (by rfl) (by rfl) (by rfl) (by rfl) (by rfl) (by rfl)

/-! ## Claim C8: parse failures are absorbed, batches are never aborted -/

theorem normalize_ok (raw : PyVal) (now : String) :
    ∃ v, normalize_webhook_payload raw now = .ok v := by
  unfold normalize_webhook_payload
  by_cases hd : isDict raw = true
  · simp only [hd, if_true]
    by_cases hpass : (((dget raw "type").getD .vnone == PyVal.vstr "message")
        || ((dget raw "type").getD .vnone == PyVal.vstr "status")) = true
    · simp only [hpass, if_true]
      exact ⟨_, rfl⟩
    · simp only [Bool.not_eq_true] at hpass
      simp only [hpass, Bool.false_eq_true, if_false]
      by_cases hm : truthy (pyOr ((dget raw "metaData").getD .vnone)
          (pyOr ((dget raw "meta_data").getD .vnone) .dnil)) = true
      · simp only [hm, if_true]
        cases he : envelopeParse (pyOr ((dget raw "metaData").getD .vnone)
            (pyOr ((dget raw "meta_data").getD .vnone) .dnil)) now with
        | error e => exact ⟨_, rfl⟩
        | ok r => exact ⟨_, rfl⟩
      · simp only [Bool.not_eq_true] at hm
        simp only [hm, Bool.false_eq_true, if_false]
        exact ⟨_, rfl⟩
  · simp only [Bool.not_eq_true] at hd
    simp only [hd, Bool.false_eq_true, if_false]
    exact ⟨_, rfl⟩

theorem ingest_ok (db : DB) (now : String) (raw : PyVal) :
    ∃ r, ingest db now raw = .ok r := by
  obtain ⟨v, hv⟩ := normalize_ok raw now
  unfold ingest
  rw [hv]
  simp only [bind, Except.bind]
  cases v with
  | none => exact ⟨_, rfl⟩
  | some p =>
      by_cases ht : truthy p = true
      · simp only [ht, if_true]
        cases hp : process_payload db now p with
        | ok r => exact ⟨_, rfl⟩
        | error e => exact ⟨_, rfl⟩
      · simp only [Bool.not_eq_true] at ht
        simp only [ht, Bool.false_eq_true, if_false]
        exact ⟨_, rfl⟩

/-- The `meta` value computed at payload_processor.py line 27:
`raw.get("metaData") or raw.get("meta_data") or` the empty dict. -/
def metaOf (raw : PyVal) : PyVal :=
  pyOr ((dget raw "metaData").getD .vnone) (pyOr ((dget raw "meta_data").getD .vnone) .dnil)

/-- C8: `normalize_webhook_payload` never raises, and every structural
access failure during provider-envelope parsing yields `Unrecognized`
(`.ok none`): a non-dict payload, a falsy/absent `meta`, an exception
caught by the try/except (missing intermediate key, wrong type, empty
`entry`/`changes` array), and the empty-`messages`/`statuses` fall-through
all return `none`; an `Unrecognized` payload leaves the store untouched
with the `unrecognized` outcome, and the batch loop completes on every
input list with one outcome per payload, so a malformed payload never
aborts a batch. The last conjunct computes the claim's example classes:
a wrong-typed `metaData`, an empty `entry` array, a missing `changes`
key, empty `messages`/`statuses` arrays, and a non-dict payload. -/
theorem C8_parse_failures_absorbed :
    (∀ (raw : PyVal) (now : String), ∃ v, normalize_webhook_payload raw now = .ok v) ∧
    (∀ (raw : PyVal) (now : String), isDict raw = false →
      normalize_webhook_payload raw now = .ok none) ∧
    (∀ (raw : PyVal) (now : String),
      isDict raw = true →
      (((dget raw "type").getD .vnone == PyVal.vstr "message")
        || ((dget raw "type").getD .vnone == PyVal.vstr "status")) = false →
      truthy (metaOf raw) = false →
      normalize_webhook_payload raw now = .ok none) ∧
    (∀ (raw : PyVal) (now : String) (e : PyErr),
      isDict raw = true →
      (((dget raw "type").getD .vnone == PyVal.vstr "message")
        || ((dget raw "type").getD .vnone == PyVal.vstr "status")) = false →
      envelopeParse (metaOf raw) now = .error e →
      normalize_webhook_payload raw now = .ok none) ∧
    (∀ (raw : PyVal) (now : String),
      isDict raw = true →
      (((dget raw "type").getD .vnone == PyVal.vstr "message")
        || ((dget raw "type").getD .vnone == PyVal.vstr "status")) = false →
      envelopeParse (metaOf raw) now = .ok none →
      normalize_webhook_payload raw now = .ok none) ∧
    (∀ (db : DB) (now : String) (raw : PyVal),
      normalize_webhook_payload raw now = .ok none →
      ingest db now raw = .ok (db, .unrecognized)) ∧
    (∀ (db : DB) (now : String) (raws : List PyVal),
      ∃ fin outs, process_path db now raws = .ok (fin, outs) ∧
        outs.length = raws.length) ∧
    (normalize_webhook_payload (pyDict [("metaData", .vstr "oops")]) "T0" = .ok none ∧
     normalize_webhook_payload
       (pyDict [("metaData", pyDict [("entry", pyList [])])]) "T0" = .ok none ∧
     normalize_webhook_payload
       (pyDict [("metaData", pyDict [("entry", pyList [pyDict []])])]) "T0" = .ok none ∧
     normalize_webhook_payload
       (pyDict [("metaData", pyDict [("entry", pyList [pyDict [("changes",
         pyList [pyDict [("value", pyDict [("messages", pyList []),
           ("statuses", pyList [])])]])]])])]) "T0" = .ok none ∧
     normalize_webhook_payload (.vint 5) "T0" = .ok none) := by
  refine ⟨normalize_ok, ?_, ?_, ?_, ?_, ?_, ?_, rfl, rfl, rfl, rfl, rfl⟩
  · intro raw now hd
    unfold normalize_webhook_payload
    simp only [hd, Bool.false_eq_true, if_false]
  · intro raw now hd hpass hm
    simp only [metaOf] at hm
    unfold normalize_webhook_payload
    simp only [hd, if_true, hpass, Bool.false_eq_true, if_false, hm]
  · intro raw now e hd hpass he
    simp only [metaOf] at he
    unfold normalize_webhook_payload
    simp only [hd, if_true, hpass, Bool.false_eq_true, if_false]
    by_cases hm : truthy (pyOr ((dget raw "metaData").getD .vnone)
        (pyOr ((dget raw "meta_data").getD .vnone) .dnil)) = true
    · simp only [hm, if_true, he]
    · simp only [Bool.not_eq_true] at hm
      simp only [hm, Bool.false_eq_true, if_false]
  · intro raw now hd hpass he
    simp only [metaOf] at he
    unfold normalize_webhook_payload
    simp only [hd, if_true, hpass, Bool.false_eq_true, if_false]
    by_cases hm : truthy (pyOr ((dget raw "metaData").getD .vnone)
        (pyOr ((dget raw "meta_data").getD .vnone) .dnil)) = true
    · simp only [hm, if_true, he]
    · simp only [Bool.not_eq_true] at hm
      simp only [hm, Bool.false_eq_true, if_false]
  · intro db now raw hn
    unfold ingest
    rw [hn]
    rfl
  · intro db now raws
    induction raws generalizing db with
    | nil => exact ⟨db, [], rfl, rfl⟩
    | cons r rest ih =>
        obtain ⟨s, hs⟩ := ingest_ok db now r
        obtain ⟨fin, outs, hrec, hlen⟩ := ih s.fst
        refine ⟨fin, s.snd :: outs, ?_, by simp [hlen]⟩
        unfold process_path
        rw [hs]
        simp only [bind, Except.bind]
        rw [hrec]
        rfl

/-- Witness for C8: a wrong-typed `metaData` (a structural access failure:
`meta.get` raises AttributeError on a string) is normalized to
`Unrecognized` and ingested without touching the store. -/
theorem C8_parse_failures_absorbed_witness :
    normalize_webhook_payload (pyDict [("metaData", .vstr "bad")]) "T1" = .ok none ∧
    ingest ⟨[], []⟩ "T1" (pyDict [("metaData", .vstr "bad")])
      = .ok (⟨[], []⟩, .unrecognized) :=
  ⟨C8_parse_failures_absorbed.2.2.2.1 (pyDict [("metaData", .vstr "bad")]) "T1"
      .attrError (by rfl) (by rfl) (by rfl),
   C8_parse_failures_absorbed.2.2.2.2.2.1 ⟨[], []⟩ "T1"
      (pyDict [("metaData", .vstr "bad")])
      (C8_parse_failures_absorbed.2.2.2.1 (pyDict [("metaData", .vstr "bad")]) "T1"
        .attrError (by rfl) (by rfl) (by rfl))⟩

/-! ## Claim C9: envelope messages are always inbound and `delivered` -/

/-- The first `messages` element of the C9 scenario: the source payload
specifies `status: "read"`. -/
def C9msg : PyVal :=
  pyDict [("id", .vstr "m9"), ("status", .vstr "read"),
          ("text", pyDict [("body", .vstr "hello")])]

/-- The `value` object of the C9 scenario. -/
def C9value : PyVal :=
  pyDict [("messages", pyList [C9msg]),
          ("contacts", pyList [pyDict [("wa_id", .vstr "w1")]])]

/-- A provider-envelope payload whose message element carries an explicit
status. -/
def C9raw : PyVal :=
  pyDict [("metaData", pyDict [("entry", pyList [pyDict [("changes",
    pyList [pyDict [("value", C9value)]])]])])]

/-- What the normalizer actually produces for `C9raw`. -/
def C9norm : PyVal :=
  pyDict [("type", .vstr "message"), ("wa_id", .vstr "w1"),
          ("meta_msg_id", .vstr "m9"), ("text", .vstr "hello"),
          ("timestamp", .vstr "NOW"), ("direction", .vstr "inbound"),
          ("status", .vstr "delivered")]

/-- C9 counterexample: the source message element specifies status `read`,
yet the normalized `MessageEvent` carries status `delivered` — the
normalizer never reads a status from the message element, so the claim
that a source-specified status is honored is false. -/
theorem C9_counterexample :
    dget C9msg "status" = some (.vstr "read") ∧
    normalize_webhook_payload C9raw "NOW" = .ok (some C9norm) ∧
    dget C9norm "status" = some (.vstr "delivered") :=
  ⟨rfl, rfl, rfl⟩

theorem envelopeParse_shape {meta : PyVal} {now : String} {p : PyVal}
    (h : envelopeParse meta now = .ok (some p)) :
    (dget p "type" = some (.vstr "message") ∧
     dget p "direction" = some (.vstr "inbound") ∧
     dget p "status" = some (.vstr "delivered")) ∨
    (dget p "type" = some (.vstr "status") ∧ dget p "direction" = none) := by
  unfold envelopeParse at h
  simp only [bind, Except.bind, pure, Except.pure] at h
  repeat' split at h
  all_goals (try simp at h)
  all_goals
    (subst h
     first
       | exact Or.inl ⟨rfl, rfl, rfl⟩
       | exact Or.inr ⟨rfl, rfl⟩)

/-- C9 (amended): for every payload taking the provider-envelope path (not
the already-normalized pass-through), a produced `MessageEvent` always has
direction `inbound` and status `delivered`; any status present in the
source message element is ignored. Only pass-through payloads can carry a
different status into the engine. -/
theorem C9_envelope_message_fields (raw : PyVal) (now : String) (p : PyVal)
    (hpass : (((dget raw "type").getD .vnone == PyVal.vstr "message")
        || ((dget raw "type").getD .vnone == PyVal.vstr "status")) = false)
    (hn : normalize_webhook_payload raw now = .ok (some p))
    (hmsg : dget p "type" = some (.vstr "message")) :
    dget p "direction" = some (.vstr "inbound") ∧
    dget p "status" = some (.vstr "delivered") := by
  unfold normalize_webhook_payload at hn
  by_cases hd : isDict raw = true
  · simp only [hd, if_true, hpass, Bool.false_eq_true, if_false] at hn
    by_cases hm : truthy (pyOr ((dget raw "metaData").getD .vnone)
        (pyOr ((dget raw "meta_data").getD .vnone) .dnil)) = true
    · simp only [hm, if_true] at hn
      cases he : envelopeParse (pyOr ((dget raw "metaData").getD .vnone)
          (pyOr ((dget raw "meta_data").getD .vnone) .dnil)) now with
      | error e =>
          rw [he] at hn
          simp at hn
      | ok r =>
          rw [he] at hn
          cases r with
          | none => simp at hn
          | some q =>
              have hq : q = p := by
                injection hn with h1
                injection h1
              subst hq
              rcases envelopeParse_shape he with ⟨_, h2, h3⟩ | ⟨h1, _⟩
              · exact ⟨h2, h3⟩
              · rw [h1] at hmsg
                exact absurd hmsg (by decide)
    · simp only [Bool.not_eq_true] at hm
      simp only [hm, Bool.false_eq_true, if_false] at hn
      simp at hn
  · simp only [Bool.not_eq_true] at hd
    simp only [hd, Bool.false_eq_true, if_false] at hn
    simp at hn

/-- Witness for C9: the concrete envelope payload with a source-specified
`read` status still yields the `inbound`/`delivered` fields. -/
theorem C9_envelope_message_fields_witness :
    dget C9norm "direction" = some (.vstr "inbound") ∧
    dget C9norm "status" = some (.vstr "delivered") :=
  C9_envelope_message_fields C9raw "NOW" C9norm (by rfl) (by rfl) (by rfl)
